import Mathlib

/-!
# Verification of the agent-tui Agent Session Engine

Shallow embedding of the skill-composition, equip, launch and session
lifecycle logic of the `agent-tui` repository, together with theorems
settling the specification claims about it.

Sources embedded here:
* `src/model.go` — `ComposePrompt`, `estimateTokens`, `isInnate`,
  `CanEquip`, `ToggleEquip`, `MaxEquipSlots`, the `s`/`x` key handlers,
  `handleAgentOutput`, `handleAgentExited`;
* `src/unnamed/part_003` — `setupWorktree`, `startAgentProcess` working
  directory resolution, `readAgentPTY`;
* `src/unnamed/part_004` — the configuration data model
  (`ForgeConfig`, `ClassConfig`, `SkillEntry`).
-/

set_option linter.unusedVariables false

namespace AgentTui

/-! ## Configuration data model (src/unnamed/part_004) -/

/-- `SkillEntry` from src/unnamed/part_004: a skill loaded from
`~/.claude/skills/*/SKILL.md`. -/
structure SkillEntry where
  ID : String
  Name : String
  Description : String
  Content : String
  deriving DecidableEq, Repr

/-- `ClassConfig` from src/unnamed/part_004. -/
structure ClassConfig where
  Description : String
  InnateSkills : List String
  ToolProfile : String
  deriving DecidableEq, Repr

/-- `ForgeConfig` from src/unnamed/part_004.  The Go `map[string]*ClassConfig`
and `map[string][]string` are modelled as association lists (YAML maps have
unique keys); a missing key is `Option.none`, as a nil pointer in Go. -/
structure ForgeConfig where
  Classes : List (String × ClassConfig)
  ToolProfiles : List (String × List String)
  Skills : List SkillEntry
  deriving DecidableEq, Repr

/-- Go map indexing `cfg.Classes[className]`: `none` models the nil pointer
returned for a missing key. -/
def lookupClass (cfg : ForgeConfig) (className : String) : Option ClassConfig :=
  cfg.Classes.lookup className

/-- The `skillMap` built at the top of `ComposePrompt` (model.go:1703-1706):
iterate over `cfg.Skills` inserting each entry under its ID, so a later
entry with the same ID overwrites an earlier one. -/
def skillMapLookup (skills : List SkillEntry) (id : String) : Option SkillEntry :=
  skills.foldl (fun acc s => if s.ID = id then some s else acc) none

/-! ## Skill composer (src/model.go:1680-1845) -/

/-- `SkillSlot` (model.go:1682-1686). -/
structure SkillSlot where
  SkillID : String
  IsInnate : Bool
  Tokens : Nat
  deriving DecidableEq, Repr

/-- `ComposedPrompt` (model.go:1689-1693). -/
structure ComposedPrompt where
  Prompt : String
  Slots : List SkillSlot
  TotalTokens : Nat
  deriving DecidableEq, Repr

/-- Scan counting the maximal runs of non-whitespace characters; the flag
records whether the scan is currently inside such a run. -/
def fieldsAux : List Char → Bool → Nat
  | [], _ => 0
  | c :: rest, inWord =>
    if c.isWhitespace then fieldsAux rest false
    else (if inWord then 0 else 1) + fieldsAux rest true

/-- Word count of `strings.Fields(text)` (model.go:1825): the number of
maximal runs of non-whitespace characters. -/
def fieldsCount (text : String) : Nat :=
  fieldsAux text.data false

/-- `estimateTokens` (model.go:1824-1827): Go computes
`int(float64(words) * 1.3)`, which truncates toward zero.  Because the
`float64` nearest to 1.3 is strictly above 13/10, the product
`float64(words) * 1.3` always lies in `[13*words/10, 13*words/10 + 1)`
for every realistic word count, so the truncation equals the natural-number
division `words * 13 / 10`. -/
def estimateTokens (text : String) : Nat :=
  fieldsCount text * 13 / 10

/-- `isInnate` (model.go:1782-1789): linear scan of the class's innate list. -/
def isInnate (class_ : ClassConfig) (skillID : String) : Bool :=
  class_.InnateSkills.contains skillID

/-- The class header computed at model.go:1712-1716: upper-case the first
character of the class name (Go slices the first byte; identical for ASCII
class names). -/
def classDisplayOf (className : String) : String :=
  if className.length > 0 then (className.take 1).toUpper ++ className.drop 1
  else className

/-- The `## Role:` section string (model.go:1716). -/
def roleSection (classDisplay description : String) : String :=
  "## Role: " ++ classDisplay ++ "\n" ++ description

/-- The `## Agent Profile` section string (model.go:1720). -/
def profileSection (agentDirectives : String) : String :=
  "## Agent Profile\n" ++ agentDirectives

/-- The innate `## Skill:` section string (model.go:1735). -/
def innateSection (skill : SkillEntry) : String :=
  "## Skill: " ++ skill.Name ++ " (Innate)\n" ++ skill.Content

/-- The equipped `## Skill:` section string (model.go:1753). -/
def equippedSection (skill : SkillEntry) : String :=
  "## Skill: " ++ skill.Name ++ "\n" ++ skill.Content

/-- One iteration of the innate-skill loop (model.go:1724-1736), acting on
the `(slots, parts)` accumulator pair exactly as the Go `append`s do. -/
def innateStep (lookup : String → Option SkillEntry)
    (acc : List SkillSlot × List String) (sid : String) :
    List SkillSlot × List String :=
  match lookup sid with
  | none => acc
  | some skill =>
    (acc.1 ++ [{ SkillID := sid, IsInnate := true,
                 Tokens := estimateTokens skill.Content }],
     acc.2 ++ [innateSection skill])

/-- One iteration of the equipped-skill loop (model.go:1739-1754). -/
def equipStep (classCfg : ClassConfig) (lookup : String → Option SkillEntry)
    (acc : List SkillSlot × List String) (sid : String) :
    List SkillSlot × List String :=
  if isInnate classCfg sid then acc
  else
    match lookup sid with
    | none => acc
    | some skill =>
      (acc.1 ++ [{ SkillID := sid, IsInnate := false,
                   Tokens := estimateTokens skill.Content }],
       acc.2 ++ [equippedSection skill])

/-- `ComposePrompt` (model.go:1697-1767).  The `passives` parameter is
accepted and unused, exactly as in the Go function. -/
def ComposePrompt (cfg : ForgeConfig) (className : String)
    (equipped : List String) (passives : List String)
    (agentDirectives : String) : ComposedPrompt :=
  match lookupClass cfg className with
  | none => { Prompt := "", Slots := [], TotalTokens := 0 }
  | some classCfg =>
    let lookup := skillMapLookup cfg.Skills
    let classDisplay := classDisplayOf className
    let parts0 := [roleSection classDisplay classCfg.Description]
    let parts1 := if agentDirectives ≠ "" then parts0 ++ [profileSection agentDirectives]
                  else parts0
    let acc1 := classCfg.InnateSkills.foldl (innateStep lookup) ([], parts1)
    let acc2 := equipped.foldl (equipStep classCfg lookup) acc1
    let total := acc2.1.foldl (fun t s => t + s.Tokens) 0
    { Prompt := String.intercalate "\n\n" acc2.2
      Slots := acc2.1
      TotalTokens := total }

/-! ## Equip helpers (src/model.go:1780-1819) -/

/-- `MaxEquipSlots` (model.go:1780). -/
def MaxEquipSlots : Nat := 6

/-- `CanEquip` (model.go:1792-1806). -/
def CanEquip (cfg : ForgeConfig) (className : String)
    (equipped : List String) (skillID : String) : Bool :=
  match lookupClass cfg className with
  | none => false
  | some classCfg =>
    if isInnate classCfg skillID then false
    else if equipped.contains skillID then false
    else equipped.length < MaxEquipSlots

/-- `ToggleEquip` (model.go:1809-1819).  The Go loop removes the first
occurrence of `skillID` if present (`append(equipped[:i], equipped[i+1:]...)`
is the slice with element `i` removed), which is `List.erase`; otherwise it
appends subject to `CanEquip`. -/
def ToggleEquip (cfg : ForgeConfig) (className : String)
    (equipped : List String) (skillID : String) : List String :=
  if equipped.contains skillID then equipped.erase skillID
  else if CanEquip cfg className equipped skillID then equipped ++ [skillID]
  else equipped

/-- The number of non-innate entries of a loadout for a class: the measure
used by the equip-slot invariant. -/
def nonInnateCount (cfg : ForgeConfig) (className : String)
    (equipped : List String) : Nat :=
  match lookupClass cfg className with
  | none => equipped.length
  | some classCfg => (equipped.filter fun sid => !isInnate classCfg sid).length

/-! ## Session lifecycle (src/model.go:605-702, 896-984) -/

/-- The UI-visible fields of an `AgentInstance` that the `s` key handler
touches (model.go:132-160): `Status` is one of `"idle"`, `"running"`,
`"exited"`. -/
structure SessionState where
  Status : String
  Task : String
  deriving DecidableEq, Repr

/-- The `s`-key branch of `handleMainPaneKeys` (model.go:901-920); the
branch in `handlePartyBarKeys` (model.go:960-979) is identical.  Input: the
selected instance (`none` models a nil `m.agent()`), and the terminal
geometry.  Output: the instance state after the key press, and whether a
launch command (`startAgent`) was issued. -/
def sKeyPress (inst : Option SessionState) (tw th : Int) :
    Option SessionState × Bool :=
  match inst with
  | none => (none, false)
  | some a =>
    if a.Status = "idle" ∨ a.Status = "exited" then
      if tw > 0 ∧ th > 0 then
        (some { Status := "idle", Task := "Starting..." }, true)
      else (some a, false)
    else (some a, false)

/-- The `x`-key branch of `handleMainPaneKeys` (model.go:921-929): an
explicit stop is only acted on while `Status == "running"`; it marks the
instance exited optimistically and signals the process.  The Bool reports
whether SIGTERM was sent (the instance had a live process handle). -/
def xKeyPress (inst : Option SessionState) (hasProcess : Bool) :
    Option SessionState × Bool :=
  match inst with
  | none => (none, false)
  | some a =>
    if a.Status = "running" then
      (some { Status := "exited", Task := "Stopping..." }, hasProcess)
    else (some a, false)

/-- A teardown step of the cleanup goroutine spawned by
`handleAgentExited` (model.go:689-699). -/
inductive TeardownEvent where
  | closeEmulator
  | closePTY
  | waitProcess
  deriving DecidableEq, Repr

/-- The ordered trace of the cleanup goroutine in `handleAgentExited`
(model.go:689-699): each handle that is non-nil is released, emulator
first, then PTY file, then process wait. -/
def cleanupTrace (hasEmulator hasPtyFile hasCmd : Bool) : List TeardownEvent :=
  (if hasEmulator then [TeardownEvent.closeEmulator] else []) ++
  (if hasPtyFile then [TeardownEvent.closePTY] else []) ++
  (if hasCmd then [TeardownEvent.waitProcess] else [])

/-! ## PTY read pump (src/unnamed/part_003:179-197, src/model.go:625-640) -/

/-- Result of the blocking `ptf.Read(buf)` call inside `readAgentPTY`. -/
inductive ReadOutcome where
  | ok (n : Nat)
  | readErr
  deriving DecidableEq, Repr

/-- Messages delivered to the core from a PTY read worker
(src/unnamed/part_003:58-77, restricted to the two read-pump messages). -/
inductive AgentMsg where
  | output (bytesRead : Nat)
  | exited (hadReadError : Bool)
  deriving DecidableEq, Repr

/-- `readAgentPTY` (src/unnamed/part_003:179-197): with a nil PTY file or
emulator the worker reports exit immediately; a read error becomes an
`AgentExitedMsg`; otherwise the bytes are fed to the emulator and an
`AgentOutputMsg` is returned. -/
def readAgentPTY (hasPtyFile hasEmulator : Bool) (outcome : ReadOutcome) :
    AgentMsg :=
  if !hasPtyFile ∨ !hasEmulator then AgentMsg.exited false
  else
    match outcome with
    | ReadOutcome.readErr => AgentMsg.exited true
    | ReadOutcome.ok n => AgentMsg.output n

/-- `handleAgentOutput` (model.go:625-640), reduced to scheduling: the
number of further `readAgentPTY` commands the core issues for this message.
`instFound` models `m.agentByID(msg.ID) != nil`. -/
def handleAgentOutputReads (instFound : Bool) (status : String) : Nat :=
  if instFound ∧ status = "running" then 1 else 0

/-- The core's dispatch of a read-pump message for one session, combining
`handleAgentOutput` (model.go:625-640) and the status transition of
`handleAgentExited` (model.go:642-647).  Returns the session status after
handling and the number of further reads scheduled. -/
def coreDispatch (instFound : Bool) (status : String) (msg : AgentMsg) :
    String × Nat :=
  match msg with
  | AgentMsg.output _ => (status, handleAgentOutputReads instFound status)
  | AgentMsg.exited _ => (if instFound then "exited" else status, 0)

/-! ## Worktree isolation and launch directory (src/unnamed/part_003:101-257) -/

/-- Oracle for the filesystem and git subprocess calls made by
`setupWorktree`.  Each field answers one external query; `none` for
`revParseOutput` models a non-zero `git rev-parse` exit. -/
structure GitEnv where
  cwd : String
  worktreesRoot : String
  revParseOutput : String → Option String
  pathExists : String → Bool
  validWorktree : String → Bool
  worktreeAddOK : String → String → Bool
  worktreeAddNewBranchOK : String → String → Bool

/-- The git-repository check at src/unnamed/part_003:226-229: the command
must succeed and its trimmed output must be `"true"`. -/
def isGitRepo (env : GitEnv) (dir : String) : Bool :=
  match env.revParseOutput dir with
  | none => false
  | some out => out.trim = "true"

/-- The project-directory normalisation at src/unnamed/part_003:220-223. -/
def resolveProjectDir (env : GitEnv) (projectDir : String) : String :=
  if projectDir = "" ∨ projectDir = "." then env.cwd else projectDir

/-- `setupWorktree` (src/unnamed/part_003:219-257), returning
`(worktree path, branch, error)` as the Go function does.  The stale-worktree
removal, prune and mkdir calls are pure side effects on the oracle and do
not change the returned value. -/
def setupWorktree (env : GitEnv) (partyName agentName projectDir : String) :
    String × String × Option String :=
  let dir := resolveProjectDir env projectDir
  if !isGitRepo env dir then ("", "", some "not a git repo")
  else
    let lowerAgent := agentName.toLower
    let branch := "forge/" ++ partyName ++ "/" ++ lowerAgent
    let wtPath := env.worktreesRoot ++ "/" ++ partyName ++ "/" ++ lowerAgent
    if env.pathExists wtPath ∧ env.validWorktree wtPath then
      (wtPath, branch, none)
    else if env.worktreeAddOK wtPath branch then (wtPath, branch, none)
    else if env.worktreeAddNewBranchOK wtPath branch then (wtPath, branch, none)
    else ("", "", some "git worktree add")

/-- The working-directory resolution of `startAgentProcess`
(src/unnamed/part_003:130-137): `workDir` starts as the project directory
and is replaced, together with the recorded worktree and branch, only when
`setupWorktree` returns no error. -/
def resolveLaunchDirs (env : GitEnv) (partyName agentName projectDir : String) :
    String × String × String :=
  match setupWorktree env partyName agentName projectDir with
  | (wt, br, none) => (wt, wt, br)
  | (_, _, some _) => (projectDir, "", "")


/-! ## Derived slot/section forms used to state the composition theorems -/

/-- The slot the innate loop produces for one innate skill ID, if any. -/
def innateSlotOf (lookup : String → Option SkillEntry) (sid : String) :
    Option SkillSlot :=
  (lookup sid).map fun sk =>
    { SkillID := sid, IsInnate := true, Tokens := estimateTokens sk.Content }

/-- The section the innate loop produces for one innate skill ID, if any. -/
def innateSectionOf (lookup : String → Option SkillEntry) (sid : String) :
    Option String :=
  (lookup sid).map innateSection

/-- The slot the equipped loop produces for one equipped skill ID, if any. -/
def equipSlotOf (classCfg : ClassConfig) (lookup : String → Option SkillEntry)
    (sid : String) : Option SkillSlot :=
  if isInnate classCfg sid then none
  else (lookup sid).map fun sk =>
    { SkillID := sid, IsInnate := false, Tokens := estimateTokens sk.Content }

/-- The section the equipped loop produces for one equipped skill ID, if any. -/
def equipSectionOf (classCfg : ClassConfig) (lookup : String → Option SkillEntry)
    (sid : String) : Option String :=
  if isInnate classCfg sid then none
  else (lookup sid).map equippedSection

/-- The header sections emitted before any skill section. -/
def headerParts (className : String) (classCfg : ClassConfig)
    (agentDirectives : String) : List String :=
  [roleSection (classDisplayOf className) classCfg.Description] ++
  (if agentDirectives ≠ "" then [profileSection agentDirectives] else [])

/-! ## Concrete fixtures

The scenario of spec §8: class `coder` with innate skill `tdd` whose
content has 5 words, and an equippable skill `debug-helper` whose content
has 10 words. -/

/-- The innate `tdd` skill of the spec scenario, with 5-word content. -/
def tddSkill : SkillEntry :=
  { ID := "tdd", Name := "TDD", Description := "",
    Content := "write a failing test first" }

/-- The equippable `debug-helper` skill of the spec scenario, with 10-word
content. -/
def debugSkill : SkillEntry :=
  { ID := "debug-helper", Name := "Debug Helper", Description := "",
    Content := "a b c d e f g h i j" }

/-- The `coder` class of the spec scenario, with `tdd` innate. -/
def coderClass : ClassConfig :=
  { Description := "Writes code", InnateSkills := ["tdd"], ToolProfile := "dev" }

/-- Configuration holding the spec-scenario class and skills. -/
def scenarioCfg : ForgeConfig :=
  { Classes := [("coder", coderClass)], ToolProfiles := [],
    Skills := [tddSkill, debugSkill] }

/-- A class with no innate skills, for the equip-limit experiments. -/
def bareClass : ClassConfig :=
  { Description := "", InnateSkills := [], ToolProfile := "" }

/-- Configuration holding only the bare class. -/
def rangerCfg : ForgeConfig :=
  { Classes := [("ranger", bareClass)], ToolProfiles := [], Skills := [] }

/-- An (over-full) loadout of seven distinct skill IDs. -/
def sevenSkills : List String :=
  ["s1", "s2", "s3", "s4", "s5", "s6", "s7"]

/-- A git environment in which every `git rev-parse` invocation fails:
no directory is a git repository. -/
def noGitEnv : GitEnv :=
  { cwd := "/home/u"
    worktreesRoot := "/home/u/.forge/worktrees"
    revParseOutput := fun _ => none
    pathExists := fun _ => false
    validWorktree := fun _ => false
    worktreeAddOK := fun _ _ => false
    worktreeAddNewBranchOK := fun _ _ => false }

/-! ## Fold lemmas for the composition loops -/

lemma foldl_innateStep (lookup : String → Option SkillEntry) :
    ∀ (l : List String) (acc : List SkillSlot × List String),
      l.foldl (innateStep lookup) acc =
        (acc.1 ++ l.filterMap (innateSlotOf lookup),
         acc.2 ++ l.filterMap (innateSectionOf lookup)) := by
  intro l
  induction l with
  | nil => intro acc; simp
  | cons a l ih =>
    intro acc
    cases h : lookup a with
    | none =>
      simp [List.foldl_cons, innateStep, h, innateSlotOf, innateSectionOf, ih]
    | some sk =>
      simp [List.foldl_cons, innateStep, h, innateSlotOf, innateSectionOf, ih]

lemma foldl_equipStep (classCfg : ClassConfig)
    (lookup : String → Option SkillEntry) :
    ∀ (l : List String) (acc : List SkillSlot × List String),
      l.foldl (equipStep classCfg lookup) acc =
        (acc.1 ++ l.filterMap (equipSlotOf classCfg lookup),
         acc.2 ++ l.filterMap (equipSectionOf classCfg lookup)) := by
  intro l
  induction l with
  | nil => intro acc; simp
  | cons a l ih =>
    intro acc
    by_cases hin : isInnate classCfg a
    · simp [List.foldl_cons, equipStep, hin, equipSlotOf, equipSectionOf, ih]
    · cases h : lookup a with
      | none =>
        simp [List.foldl_cons, equipStep, hin, h, equipSlotOf, equipSectionOf, ih]
      | some sk =>
        simp [List.foldl_cons, equipStep, hin, h, equipSlotOf, equipSectionOf, ih]

lemma foldl_tokens :
    ∀ (l : List SkillSlot) (n : Nat),
      l.foldl (fun t s => t + s.Tokens) n = n + (l.map SkillSlot.Tokens).sum := by
  intro l
  induction l with
  | nil => intro n; simp
  | cons a l ih => intro n; simp [List.foldl_cons, ih, Nat.add_assoc]

/-- Structure of `ComposePrompt` when the class exists: the slots are the
innate contributions followed by the equipped contributions, the prompt is
the join of header, innate and equipped sections in that order, and the
total is the sum of the slot tokens. -/
lemma composePrompt_structure (cfg : ForgeConfig) (className : String)
    (equipped passives : List String) (agentDirectives : String)
    (classCfg : ClassConfig) (h : lookupClass cfg className = some classCfg) :
    ComposePrompt cfg className equipped passives agentDirectives =
      { Prompt := String.intercalate "\n\n"
          (headerParts className classCfg agentDirectives ++
           classCfg.InnateSkills.filterMap (innateSectionOf (skillMapLookup cfg.Skills)) ++
           equipped.filterMap (equipSectionOf classCfg (skillMapLookup cfg.Skills)))
        Slots :=
          classCfg.InnateSkills.filterMap (innateSlotOf (skillMapLookup cfg.Skills)) ++
          equipped.filterMap (equipSlotOf classCfg (skillMapLookup cfg.Skills))
        TotalTokens :=
          ((classCfg.InnateSkills.filterMap (innateSlotOf (skillMapLookup cfg.Skills)) ++
            equipped.filterMap (equipSlotOf classCfg (skillMapLookup cfg.Skills))).map
              SkillSlot.Tokens).sum } := by
  unfold ComposePrompt
  rw [h]
  simp only [foldl_innateStep, foldl_equipStep, foldl_tokens, headerParts]
  by_cases hd : agentDirectives = "" <;> simp [hd, List.append_assoc]


/-! ## Supporting lemmas for the equip claims -/

/-- What `CanEquip = true` guarantees: the skill is not already equipped and
the loadout is below the limit. -/
lemma canEquip_spec {cfg : ForgeConfig} {className : String}
    {equipped : List String} {skillID : String}
    (h : CanEquip cfg className equipped skillID = true) :
    equipped.contains skillID = false ∧ equipped.length < MaxEquipSlots := by
  unfold CanEquip at h
  cases hl : lookupClass cfg className with
  | none => rw [hl] at h; dsimp only at h; exact Bool.noConfusion h
  | some classCfg =>
    rw [hl] at h
    dsimp only at h
    split_ifs at h with hi hc
    have hcf : equipped.contains skillID = false := by
      cases hcc : equipped.contains skillID
      · rfl
      · exact absurd hcc hc
    exact ⟨hcf, of_decide_eq_true h⟩

/-- The loadout size never grows past the equip limit. -/
lemma toggleEquip_length {cfg : ForgeConfig} {className : String}
    {equipped : List String} {skillID : String}
    (h : equipped.length ≤ MaxEquipSlots) :
    (ToggleEquip cfg className equipped skillID).length ≤ MaxEquipSlots := by
  unfold ToggleEquip
  by_cases hc : equipped.contains skillID = true
  · rw [if_pos hc]
    exact le_trans (List.erase_sublist _ _).length_le h
  · rw [if_neg hc]
    by_cases hq : CanEquip cfg className equipped skillID = true
    · rw [if_pos hq]
      have hlen := (canEquip_spec hq).2
      rw [List.length_append, List.length_singleton]
      omega
    · rw [if_neg hq]
      exact h

/-- The non-innate measure is bounded by the loadout size. -/
lemma nonInnateCount_le_length (cfg : ForgeConfig) (className : String)
    (l : List String) : nonInnateCount cfg className l ≤ l.length := by
  unfold nonInnateCount
  cases lookupClass cfg className with
  | none => exact le_rfl
  | some classCfg => exact List.length_filter_le _ _

/-- Inversion for membership in the innate slot list. -/
lemma innateSlot_inv {lookup : String → Option SkillEntry} {sid : String}
    {slot : SkillSlot} (hslot : innateSlotOf lookup sid = some slot) :
    ∃ sk, lookup sid = some sk ∧
      slot = { SkillID := sid, IsInnate := true, Tokens := estimateTokens sk.Content } := by
  unfold innateSlotOf at hslot
  cases hl : lookup sid with
  | none => rw [hl, Option.map_none'] at hslot; exact Option.noConfusion hslot
  | some sk =>
    rw [hl, Option.map_some', Option.some_inj] at hslot
    exact ⟨sk, rfl, hslot.symm⟩

/-- Inversion for membership in the equipped slot list. -/
lemma equipSlot_inv {classCfg : ClassConfig} {lookup : String → Option SkillEntry}
    {sid : String} {slot : SkillSlot}
    (hslot : equipSlotOf classCfg lookup sid = some slot) :
    isInnate classCfg sid = false ∧ ∃ sk, lookup sid = some sk ∧
      slot = { SkillID := sid, IsInnate := false, Tokens := estimateTokens sk.Content } := by
  unfold equipSlotOf at hslot
  by_cases hi : isInnate classCfg sid = true
  · rw [if_pos hi] at hslot; exact Option.noConfusion hslot
  · rw [if_neg hi] at hslot
    have hif : isInnate classCfg sid = false := by
      cases hcc : isInnate classCfg sid
      · rfl
      · exact absurd hcc hi
    cases hl : lookup sid with
    | none => rw [hl, Option.map_none'] at hslot; exact Option.noConfusion hslot
    | some sk =>
      rw [hl, Option.map_some', Option.some_inj] at hslot
      exact ⟨hif, sk, rfl, hslot.symm⟩

/-! ## Claims -/

/-- C1, counterexample: the per-skill token estimate is *truncated*, not
rounded.  On the spec's own scenario (5-word innate content, 10-word
equipped content) the estimate of the 5-word content is 6, not
`round(5 * 1.3) = 7`, and the composed total is 19, not 20. -/
theorem C1_counterexample :
    estimateTokens tddSkill.Content = 6 ∧
    (ComposePrompt scenarioCfg "coder" ["debug-helper"] [] "").TotalTokens = 19 ∧
    ¬ (ComposePrompt scenarioCfg "coder" ["debug-helper"] [] "").TotalTokens = 20 := by
  decide

/-- C1 (amended): every slot's token estimate is `wordCount(content) * 13 / 10`
(the truncation of `wordCount * 1.3`, not its rounding), the `TotalTokens`
of a composed prompt is the sum of its slot tokens, and the spec scenario
(one 5-word innate skill, one 10-word equipped skill) composes to
`6 + 13 = 19` tokens. -/
theorem C1_amended_tokens (cfg : ForgeConfig) (className : String)
    (equipped passives : List String) (agentDirectives : String) :
    ((ComposePrompt cfg className equipped passives agentDirectives).TotalTokens =
      ((ComposePrompt cfg className equipped passives agentDirectives).Slots.map
        SkillSlot.Tokens).sum ∧
     ∀ slot ∈ (ComposePrompt cfg className equipped passives agentDirectives).Slots,
       ∃ sk, skillMapLookup cfg.Skills slot.SkillID = some sk ∧
         slot.Tokens = fieldsCount sk.Content * 13 / 10) ∧
    (ComposePrompt scenarioCfg "coder" ["debug-helper"] [] "").TotalTokens = 6 + 13 := by
  refine ⟨?_, by decide⟩
  cases h : lookupClass cfg className with
  | none =>
    unfold ComposePrompt
    rw [h]
    simp
  | some classCfg =>
    rw [composePrompt_structure cfg className equipped passives agentDirectives classCfg h]
    refine ⟨rfl, ?_⟩
    intro slot hmem
    simp only [List.mem_append, List.mem_filterMap] at hmem
    rcases hmem with ⟨sid, hsid, hslot⟩ | ⟨sid, hsid, hslot⟩
    · obtain ⟨sk, hl, hs⟩ := innateSlot_inv hslot
      subst hs
      exact ⟨sk, hl, rfl⟩
    · obtain ⟨-, sk, hl, hs⟩ := equipSlot_inv hslot
      subst hs
      exact ⟨sk, hl, rfl⟩

/-- C1 witness: the amended claim instantiated on the spec scenario, at the
equipped `debug-helper` slot. -/
theorem C1_witness :
    (ComposePrompt scenarioCfg "coder" ["debug-helper"] [] "").TotalTokens =
      ((ComposePrompt scenarioCfg "coder" ["debug-helper"] [] "").Slots.map
        SkillSlot.Tokens).sum ∧
    ∃ sk, skillMapLookup scenarioCfg.Skills "debug-helper" = some sk ∧
      (13 : Nat) = fieldsCount sk.Content * 13 / 10 := by
  obtain ⟨⟨h1, h2⟩, -⟩ := C1_amended_tokens scenarioCfg "coder" ["debug-helper"] [] ""
  refine ⟨h1, ?_⟩
  simpa using h2 { SkillID := "debug-helper", IsInnate := false, Tokens := 13 } (by decide)

/-- C2: `ToggleEquip` is an involution on a loadout in which the skill was
legally equippable (`CanEquip` holds): equipping then toggling again
returns the original loadout. -/
theorem C2_toggleEquip_involution (cfg : ForgeConfig) (className : String)
    (equipped : List String) (skillID : String)
    (h : CanEquip cfg className equipped skillID = true) :
    ToggleEquip cfg className (ToggleEquip cfg className equipped skillID) skillID =
      equipped := by
  obtain ⟨hc, hlen⟩ := canEquip_spec h
  have hmem : skillID ∉ equipped := by simpa using hc
  have h1 : ToggleEquip cfg className equipped skillID = equipped ++ [skillID] := by
    unfold ToggleEquip
    rw [if_neg (by rw [hc]; exact Bool.noConfusion), if_pos h]
  rw [h1]
  unfold ToggleEquip
  rw [if_pos (by simp)]
  rw [List.erase_append_right _ hmem, List.erase_cons_head, List.append_nil]

/-- C2 witness: equipping `debug-helper` on an empty loadout and toggling
again yields the empty loadout. -/
theorem C2_witness :
    ToggleEquip scenarioCfg "coder"
      (ToggleEquip scenarioCfg "coder" [] "debug-helper") "debug-helper" = [] :=
  C2_toggleEquip_involution scenarioCfg "coder" [] "debug-helper" (by decide)

/-- C3, counterexample: `ToggleEquip` does not repair an already over-full
loadout.  Toggling a fresh skill on a 7-entry loadout (for a class with no
innate skills) returns the loadout unchanged, with 7 > 6 non-innate
entries. -/
theorem C3_counterexample :
    ¬ (nonInnateCount rangerCfg "ranger"
        (ToggleEquip rangerCfg "ranger" sevenSkills "s8") ≤ MaxEquipSlots) := by
  decide

/-- C3 (amended): provided the input loadout holds at most 6 entries — the
invariant every loadout reachable through `CanEquip`-guarded equips
satisfies — the loadout returned by `ToggleEquip` contains at most 6
non-innate equipped skills. -/
theorem C3_amended_maxSlots (cfg : ForgeConfig) (className : String)
    (equipped : List String) (skillID : String)
    (h : equipped.length ≤ MaxEquipSlots) :
    nonInnateCount cfg className (ToggleEquip cfg className equipped skillID) ≤
      MaxEquipSlots :=
  le_trans (nonInnateCount_le_length cfg className _) (toggleEquip_length h)

/-- C3 witness: equipping a skill on an empty loadout respects the limit. -/
theorem C3_witness :
    nonInnateCount rangerCfg "ranger"
      (ToggleEquip rangerCfg "ranger" [] "s1") ≤ MaxEquipSlots :=
  C3_amended_maxSlots rangerCfg "ranger" [] "s1" (by decide)

/-- C4: a skill ID that is innate for the class is never emitted as a
non-innate (equipped) slot of the composed prompt — every slot whose
`IsInnate` flag is false carries a skill ID outside the class's innate
list, whatever the equipped list contains. -/
theorem C4_innate_excluded_from_equipped (cfg : ForgeConfig) (className : String)
    (equipped passives : List String) (agentDirectives : String)
    (classCfg : ClassConfig) (slot : SkillSlot)
    (hclass : lookupClass cfg className = some classCfg)
    (hmem : slot ∈ (ComposePrompt cfg className equipped passives agentDirectives).Slots)
    (hni : slot.IsInnate = false) :
    isInnate classCfg slot.SkillID = false := by
  rw [composePrompt_structure cfg className equipped passives agentDirectives
      classCfg hclass] at hmem
  simp only [List.mem_append, List.mem_filterMap] at hmem
  rcases hmem with ⟨sid, hsid, hslot⟩ | ⟨sid, hsid, hslot⟩
  · obtain ⟨sk, hl, hs⟩ := innateSlot_inv hslot
    subst hs
    exact Bool.noConfusion hni
  · obtain ⟨hif, sk, hl, hs⟩ := equipSlot_inv hslot
    subst hs
    exact hif

/-- C4 witness: with `tdd` innate for `coder` and equipped list
`["tdd", "debug-helper"]`, the non-innate `debug-helper` slot carries a
skill ID outside the innate list. -/
theorem C4_witness : isInnate coderClass "debug-helper" = false :=
  C4_innate_excluded_from_equipped scenarioCfg "coder" ["tdd", "debug-helper"] [] ""
    coderClass { SkillID := "debug-helper", IsInnate := false, Tokens := 13 }
    (by decide) (by decide) rfl

/-- C5, counterexample: duplicates in the equipped list are *not* skipped:
passing `debug-helper` twice produces two slots with that skill ID. -/
theorem C5_counterexample :
    ¬ (((ComposePrompt scenarioCfg "coder" ["debug-helper", "debug-helper"] [] "").Slots.filter
        (fun s => s.SkillID == "debug-helper")).length ≤ 1) := by
  decide

/-- C5 (amended): sections are emitted in fixed order — class role header,
agent directives if any, innate skills in class-declared order, then
equipped skills in list order — but each *occurrence* of a non-innate known
skill ID in the equipped list produces its own slot and section: duplicate
occurrences are not skipped. -/
theorem C5_amended_sections_order (cfg : ForgeConfig) (className : String)
    (equipped passives : List String) (agentDirectives : String)
    (classCfg : ClassConfig)
    (h : lookupClass cfg className = some classCfg) :
    (ComposePrompt cfg className equipped passives agentDirectives).Prompt =
      String.intercalate "\n\n"
        (headerParts className classCfg agentDirectives ++
         classCfg.InnateSkills.filterMap (innateSectionOf (skillMapLookup cfg.Skills)) ++
         equipped.filterMap (equipSectionOf classCfg (skillMapLookup cfg.Skills))) ∧
    (ComposePrompt cfg className equipped passives agentDirectives).Slots =
      classCfg.InnateSkills.filterMap (innateSlotOf (skillMapLookup cfg.Skills)) ++
      equipped.filterMap (equipSlotOf classCfg (skillMapLookup cfg.Skills)) := by
  rw [composePrompt_structure cfg className equipped passives agentDirectives classCfg h]
  exact ⟨rfl, rfl⟩

/-- C5 witness: the section decomposition instantiated on the scenario with
a duplicated equipped skill, exhibiting one slot per occurrence. -/
theorem C5_witness :
    (ComposePrompt scenarioCfg "coder" ["debug-helper", "debug-helper"] [] "").Slots =
      coderClass.InnateSkills.filterMap (innateSlotOf (skillMapLookup scenarioCfg.Skills)) ++
      (["debug-helper", "debug-helper"] : List String).filterMap
        (equipSlotOf coderClass (skillMapLookup scenarioCfg.Skills)) :=
  (C5_amended_sections_order scenarioCfg "coder" ["debug-helper", "debug-helper"] [] ""
    coderClass (by decide)).2


/-- C6: a start request (`s` key) is honoured only when the selected
instance's `Status` is `"idle"` or `"exited"`; issued while the instance is
`"running"`, it is rejected — the state is unchanged and no launch command
is issued. -/
theorem C6_launch_only_idle_or_exited :
    (∀ (a : SessionState) (tw th : Int), a.Status = "running" →
        sKeyPress (some a) tw th = (some a, false)) ∧
    (∀ (inst : Option SessionState) (tw th : Int) (st : Option SessionState),
        sKeyPress inst tw th = (st, true) →
        ∃ a, inst = some a ∧ (a.Status = "idle" ∨ a.Status = "exited")) := by
  constructor
  · intro a tw th hrun
    unfold sKeyPress
    dsimp only
    rw [if_neg (by rw [hrun]; decide)]
  · intro inst tw th st hkey
    cases inst with
    | none => simp [sKeyPress] at hkey
    | some a =>
      by_cases hcond : a.Status = "idle" ∨ a.Status = "exited"
      · exact ⟨a, rfl, hcond⟩
      · unfold sKeyPress at hkey
        dsimp only at hkey
        rw [if_neg hcond] at hkey
        simp at hkey

/-- C6 witness: pressing `s` on a running instance changes nothing and
launches nothing. -/
theorem C6_witness :
    sKeyPress (some { Status := "running", Task := "Running claude..." }) 80 24 =
      (some { Status := "running", Task := "Running claude..." }, false) :=
  C6_launch_only_idle_or_exited.1
    { Status := "running", Task := "Running claude..." } 80 24 rfl

/-- C7: when the resolved project directory is not a git repository,
`setupWorktree` returns empty worktree path and branch with an error, and
the launch's working directory resolves to the plain project directory with
no worktree or branch recorded. -/
theorem C7_non_git_repo_degrades (env : GitEnv)
    (partyName agentName projectDir : String)
    (h : isGitRepo env (resolveProjectDir env projectDir) = false) :
    setupWorktree env partyName agentName projectDir =
      ("", "", some "not a git repo") ∧
    resolveLaunchDirs env partyName agentName projectDir = (projectDir, "", "") := by
  have hs : setupWorktree env partyName agentName projectDir =
      ("", "", some "not a git repo") := by
    simp [setupWorktree, h]
  refine ⟨hs, ?_⟩
  unfold resolveLaunchDirs
  rw [hs]

/-- C7 witness: in an environment where no directory is a git repository,
launching from `/proj` degrades to `/proj` itself. -/
theorem C7_witness :
    setupWorktree noGitEnv "alpha" "Rook" "/proj" = ("", "", some "not a git repo") ∧
    resolveLaunchDirs noGitEnv "alpha" "Rook" "/proj" = ("/proj", "", "") :=
  C7_non_git_repo_degrades noGitEnv "alpha" "Rook" "/proj" rfl

/-- C8: the teardown trace of `handleAgentExited` releases resources in
strict order — any emulator close precedes any PTY close, any PTY close
precedes any process wait, and with all three handles live the trace is
exactly close-emulator, close-PTY, wait-process.  In particular the
emulator is never closed after the PTY file. -/
theorem C8_teardown_order :
    (∀ (hasEmulator hasPtyFile hasCmd : Bool)
        (i j : Fin (cleanupTrace hasEmulator hasPtyFile hasCmd).length),
        (cleanupTrace hasEmulator hasPtyFile hasCmd).get i = TeardownEvent.closePTY →
        (cleanupTrace hasEmulator hasPtyFile hasCmd).get j = TeardownEvent.closeEmulator →
        (j : Nat) < (i : Nat)) ∧
    (∀ (hasEmulator hasPtyFile hasCmd : Bool)
        (i j : Fin (cleanupTrace hasEmulator hasPtyFile hasCmd).length),
        (cleanupTrace hasEmulator hasPtyFile hasCmd).get i = TeardownEvent.waitProcess →
        (cleanupTrace hasEmulator hasPtyFile hasCmd).get j = TeardownEvent.closePTY →
        (j : Nat) < (i : Nat)) ∧
    cleanupTrace true true true =
      [TeardownEvent.closeEmulator, TeardownEvent.closePTY, TeardownEvent.waitProcess] := by
  decide

/-- C8 witness: with all three handles live the trace is the canonical
ordered one, and in it the emulator close (index 0) precedes the PTY close
(index 1). -/
theorem C8_witness :
    cleanupTrace true true true =
      [TeardownEvent.closeEmulator, TeardownEvent.closePTY, TeardownEvent.waitProcess] ∧
    (0 : Nat) < 1 :=
  ⟨C8_teardown_order.2.2,
   C8_teardown_order.1 true true true ⟨1, by decide⟩ ⟨0, by decide⟩
     (by decide) (by decide)⟩

/-- C9: a read that returns an error (or fires with nil handles) always
produces an `AgentExitedMsg`; the core never schedules more than one
further read per delivered message; and for a live (`running` or already
`exited`) session, every completed read leads either to exactly one further
scheduled read with the session still running, or to the session being in
the terminal `exited` state — no read of a running session is dropped. -/
theorem C9_read_pump :
    (∀ (hasPtyFile hasEmulator : Bool),
        ∃ e, readAgentPTY hasPtyFile hasEmulator ReadOutcome.readErr =
          AgentMsg.exited e) ∧
    (∀ (instFound : Bool) (status : String) (msg : AgentMsg),
        (coreDispatch instFound status msg).2 ≤ 1) ∧
    (∀ (status : String) (hasPtyFile hasEmulator : Bool) (outcome : ReadOutcome),
        status = "running" ∨ status = "exited" →
        ((coreDispatch true status (readAgentPTY hasPtyFile hasEmulator outcome)).1 =
            "running" ∧
         (coreDispatch true status (readAgentPTY hasPtyFile hasEmulator outcome)).2 = 1) ∨
        (coreDispatch true status (readAgentPTY hasPtyFile hasEmulator outcome)).1 =
          "exited") := by
  refine ⟨?_, ?_, ?_⟩
  · intro hasPtyFile hasEmulator
    cases hasPtyFile <;> cases hasEmulator <;> exact ⟨_, rfl⟩
  · intro instFound status msg
    cases msg with
    | output n =>
      dsimp only [coreDispatch, handleAgentOutputReads]
      split
      · exact le_rfl
      · exact Nat.zero_le 1
    | exited e =>
      dsimp only [coreDispatch]
      exact Nat.zero_le 1
  · intro status hasPtyFile hasEmulator outcome hst
    rcases hst with h | h <;> subst h <;>
      cases hasPtyFile <;> cases hasEmulator <;> cases outcome <;>
        simp [readAgentPTY, coreDispatch, handleAgentOutputReads]

/-- C9 witness: a successful 5-byte read of a running session schedules
exactly one further read. -/
theorem C9_witness :
    ((coreDispatch true "running" (readAgentPTY true true (ReadOutcome.ok 5))).1 =
        "running" ∧
     (coreDispatch true "running" (readAgentPTY true true (ReadOutcome.ok 5))).2 = 1) ∨
    (coreDispatch true "running" (readAgentPTY true true (ReadOutcome.ok 5))).1 =
      "exited" :=
  C9_read_pump.2.2 "running" true true (ReadOutcome.ok 5) (Or.inl rfl)

/-- C10: a skill ID with no entry in the skill table is silently omitted:
no slot carries it, inserting it anywhere in the equipped list leaves the
composed prompt (prompt text, slots and total tokens) unchanged, and the
innate-loop contributions likewise drop it wherever it sits in the innate
list — composition never fails on it. -/
theorem C10_unknown_skill_omitted (cfg : ForgeConfig) (className : String)
    (equipped eq1 eq2 passives : List String) (agentDirectives : String)
    (sid : String) (h : skillMapLookup cfg.Skills sid = none) :
    (∀ slot ∈ (ComposePrompt cfg className equipped passives agentDirectives).Slots,
        slot.SkillID ≠ sid) ∧
    ComposePrompt cfg className (eq1 ++ sid :: eq2) passives agentDirectives =
      ComposePrompt cfg className (eq1 ++ eq2) passives agentDirectives ∧
    (∀ in1 in2 : List String,
        (in1 ++ sid :: in2).filterMap (innateSlotOf (skillMapLookup cfg.Skills)) =
          (in1 ++ in2).filterMap (innateSlotOf (skillMapLookup cfg.Skills)) ∧
        (in1 ++ sid :: in2).filterMap (innateSectionOf (skillMapLookup cfg.Skills)) =
          (in1 ++ in2).filterMap (innateSectionOf (skillMapLookup cfg.Skills))) := by
  have hinslot : innateSlotOf (skillMapLookup cfg.Skills) sid = none := by
    unfold innateSlotOf; rw [h, Option.map_none']
  have hinsec : innateSectionOf (skillMapLookup cfg.Skills) sid = none := by
    unfold innateSectionOf; rw [h, Option.map_none']
  refine ⟨?_, ?_, ?_⟩
  · intro slot hmem habs
    cases hcl : lookupClass cfg className with
    | none =>
      unfold ComposePrompt at hmem
      rw [hcl] at hmem
      simp at hmem
    | some classCfg =>
      rw [composePrompt_structure cfg className equipped passives agentDirectives
          classCfg hcl] at hmem
      simp only [List.mem_append, List.mem_filterMap] at hmem
      rcases hmem with ⟨s, hs, hslot⟩ | ⟨s, hs, hslot⟩
      · obtain ⟨sk, hl, hsl⟩ := innateSlot_inv hslot
        subst hsl
        have hss : s = sid := habs
        rw [hss, h] at hl
        exact Option.noConfusion hl
      · obtain ⟨-, sk, hl, hsl⟩ := equipSlot_inv hslot
        subst hsl
        have hss : s = sid := habs
        rw [hss, h] at hl
        exact Option.noConfusion hl
  · cases hcl : lookupClass cfg className with
    | none =>
      unfold ComposePrompt
      rw [hcl]
    | some classCfg =>
      have heqslot : equipSlotOf classCfg (skillMapLookup cfg.Skills) sid = none := by
        unfold equipSlotOf
        by_cases hi : isInnate classCfg sid = true
        · rw [if_pos hi]
        · rw [if_neg hi, h, Option.map_none']
      have heqsec : equipSectionOf classCfg (skillMapLookup cfg.Skills) sid = none := by
        unfold equipSectionOf
        by_cases hi : isInnate classCfg sid = true
        · rw [if_pos hi]
        · rw [if_neg hi, h, Option.map_none']
      rw [composePrompt_structure cfg className (eq1 ++ sid :: eq2) passives
            agentDirectives classCfg hcl,
          composePrompt_structure cfg className (eq1 ++ eq2) passives
            agentDirectives classCfg hcl]
      simp [List.filterMap_append, List.filterMap_cons, heqslot, heqsec]
  · intro in1 in2
    constructor <;>
      simp [List.filterMap_append, List.filterMap_cons, hinslot, hinsec]

/-- C10 witness: inserting the unknown skill ID `ghost` into the equipped
list of the scenario changes nothing. -/
theorem C10_witness :
    ComposePrompt scenarioCfg "coder" (["debug-helper"] ++ "ghost" :: []) [] "" =
      ComposePrompt scenarioCfg "coder" (["debug-helper"] ++ []) [] "" :=
  (C10_unknown_skill_omitted scenarioCfg "coder" ["ghost"] ["debug-helper"] [] [] ""
    "ghost" (by decide)).2.1

end AgentTui
